import Mathlib

/-!
Verification of the record-management service in `main.py`: SQLAlchemy-backed
FastAPI app with two tables (`users`, `items`), five routes, and a thin CRUD
layer.  The relational store is embedded as an explicit state value `DB`
holding the two tables plus the auto-increment counters; each CRUD function
and each handler of the source becomes a pure function over that state.
-/

/-- Row of the `users` table (`class User(Base)` in `main.py`): id (generated
primary key), email, hashed_password, is_active.  The `items` relationship is
not a column; it is derived from the `items` table by `owner_id` (see
`User.itemsOf`). -/
structure User where
  id : Nat
  email : String
  hashed_password : String
  is_active : Bool
deriving DecidableEq

/-- Row of the `items` table (`class Item(Base)` in `main.py`): id (generated
primary key), title, description, owner_id.  The description is the value the
application layer stores, which may be absent (`ItemBase.description: str |
None = None` flows into `Item(**item.dict(), ...)`). -/
structure Item where
  id : Nat
  title : String
  description : Option String
  owner_id : Nat
deriving DecidableEq

/-- The relational store: the two tables in storage-default (insertion) order
plus the auto-increment counters (MySQL auto-increment starts at 1). -/
structure DB where
  users : List User
  items : List Item
  nextUserId : Nat
  nextItemId : Nat
deriving DecidableEq

/-- The store right after `Base.metadata.create_all`: both tables empty. -/
def DB.empty : DB := ⟨[], [], 1, 1⟩

/-- `UserCreateRequest` pydantic model: email and password, both required. -/
structure UserCreateRequest where
  email : String
  password : String
deriving DecidableEq

/-- `ItemCreateRequest` pydantic model: required title, optional description. -/
structure ItemCreateRequest where
  title : String
  description : Option String
deriving DecidableEq

/-- `ItemResponse` pydantic model: title, description, id, owner_id. -/
structure ItemResponse where
  title : String
  description : Option String
  id : Nat
  owner_id : Nat
deriving DecidableEq

/-- `UserResponse` pydantic model: email, id, is_active, items.  It has no
hashed_password field: the secret is structurally absent from responses. -/
structure UserResponse where
  email : String
  id : Nat
  is_active : Bool
  items : List ItemResponse
deriving DecidableEq

/-- `HTTPException(status_code=..., detail=...)`. -/
structure HTTPException where
  status_code : Nat
  detail : String
deriving DecidableEq

/-- `get_db_user`: `select(User).where(User.id == user_id)` then `.first()` —
the first stored user with the given id, if any. -/
def get_db_user (db : DB) (user_id : Nat) : Option User :=
  db.users.find? (fun u => u.id == user_id)

/-- `get_db_user_by_email`: `select(User).where(User.email == email)` then
`.first()`. -/
def get_db_user_by_email (db : DB) (email : String) : Option User :=
  db.users.find? (fun u => u.email == email)

/-- `get_db_users`: `select(User).offset(skip).limit(limit)` — storage-default
order, paged by offset/limit. -/
def get_db_users (db : DB) (skip : Nat) (limit : Nat) : List User :=
  (db.users.drop skip).take limit

/-- `create_db_user`: derives `fake_hashed_password = user.password +
"notreallyhashed"`, inserts a row with `is_active=True`, commits, refreshes
(obtaining the generated id) and returns the persisted row. -/
def create_db_user (db : DB) (user : UserCreateRequest) : User × DB :=
  let fake_hashed_password := user.password ++ "notreallyhashed"
  let db_user : User :=
    { id := db.nextUserId
      email := user.email
      hashed_password := fake_hashed_password
      is_active := true }
  (db_user,
    { db with
        users := db.users ++ [db_user]
        nextUserId := db.nextUserId + 1 })

/-- `get_db_items`: `select(Item).offset(skip).limit(limit)`. -/
def get_db_items (db : DB) (skip : Nat) (limit : Nat) : List Item :=
  (db.items.drop skip).take limit

/-- `create_db_user_item`: inserts `Item(**item.dict(), owner_id=user_id)`,
commits, refreshes and returns the persisted row.  No check on `user_id`. -/
def create_db_user_item (db : DB) (item : ItemCreateRequest) (user_id : Nat) :
    Item × DB :=
  let db_item : Item :=
    { id := db.nextItemId
      title := item.title
      description := item.description
      owner_id := user_id }
  (db_item,
    { db with
        items := db.items ++ [db_item]
        nextItemId := db.nextItemId + 1 })

/-- Projection of an item row into `ItemResponse` (pydantic `orm_mode`). -/
def Item.toResponse (it : Item) : ItemResponse :=
  ⟨it.title, it.description, it.id, it.owner_id⟩

/-- The `items` relationship of a user: the item rows whose `owner_id` equals
the user's id, in storage order (SQLAlchemy lazy load on attribute access). -/
def User.itemsOf (db : DB) (u : User) : List Item :=
  db.items.filter (fun it => it.owner_id == u.id)

/-- Projection of a user row into `UserResponse` (pydantic `orm_mode`): the
`items` relationship is loaded against the store and projected; the
hashed_password column is not part of the shape. -/
def User.toResponse (db : DB) (u : User) : UserResponse :=
  ⟨u.email, u.id, u.is_active, (u.itemsOf db).map Item.toResponse⟩

/-- `POST /users/` (`create_user`): look up by email; if found raise
`HTTPException(400, "Email already registered")`, else insert and return the
projected persisted user.  Returns the response (or error) with the store
after the request. -/
def create_user (user : UserCreateRequest) (db : DB) :
    Except HTTPException UserResponse × DB :=
  match get_db_user_by_email db user.email with
  | some _ => (Except.error ⟨400, "Email already registered"⟩, db)
  | none =>
      let res := create_db_user db user
      (Except.ok (User.toResponse res.2 res.1), res.2)

/-- `GET /users/` (`read_users`): list users paged by skip/limit, projected. -/
def read_users (skip : Nat) (limit : Nat) (db : DB) :
    List UserResponse × DB :=
  ((get_db_users db skip limit).map (User.toResponse db), db)

/-- `read_users` at the handler's declared query-parameter defaults
(`skip: int = 0, limit: int = 100`). -/
def read_users_default (db : DB) : List UserResponse × DB :=
  read_users 0 100 db

/-- `GET /users/{user_id}` (`read_user`): look up by id; if absent raise
`HTTPException(404, "User not found")`, else return the projected user. -/
def read_user (user_id : Nat) (db : DB) :
    Except HTTPException UserResponse × DB :=
  match get_db_user db user_id with
  | none => (Except.error ⟨404, "User not found"⟩, db)
  | some u => (Except.ok (User.toResponse db u), db)

/-- `POST /users/{user_id}/items/` (`create_item_for_user`): insert the item
with the given owner id — no existence check on the owner — and return the
projected persisted item. -/
def create_item_for_user (user_id : Nat) (item : ItemCreateRequest) (db : DB) :
    ItemResponse × DB :=
  let res := create_db_user_item db item user_id
  (Item.toResponse res.1, res.2)

/-- `GET /items/` (`read_items`): list items paged by skip/limit, projected. -/
def read_items (skip : Nat) (limit : Nat) (db : DB) :
    List ItemResponse × DB :=
  ((get_db_items db skip limit).map Item.toResponse, db)

/-- `read_items` at the handler's declared query-parameter defaults. -/
def read_items_default (db : DB) : List ItemResponse × DB :=
  read_items 0 100 db

/-- One public operation of the service (one HTTP request). -/
inductive Op where
  | createUser (req : UserCreateRequest)
  | createItem (user_id : Nat) (item : ItemCreateRequest)
  | readUser (user_id : Nat)
  | readUsers (skip limit : Nat)
  | readItems (skip limit : Nat)
deriving DecidableEq

/-- The store after serving one request. -/
def Op.apply (op : Op) (db : DB) : DB :=
  match op with
  | .createUser req => (create_user req db).2
  | .createItem uid item => (create_item_for_user uid item db).2
  | .readUser uid => (read_user uid db).2
  | .readUsers s l => (read_users s l db).2
  | .readItems s l => (read_items s l db).2

/-- The store after serving a sequence of requests. -/
def runOps (ops : List Op) (db : DB) : DB :=
  ops.foldl (fun d op => op.apply d) db

/-- A store is reachable when some sequence of requests produces it from the
freshly created schema. -/
def reachable (db : DB) : Prop :=
  ∃ ops : List Op, runOps ops DB.empty = db

/-! Helper lemmas shared by the claim theorems. -/

/-- The by-email lookup yields nothing exactly when no stored user has the
email. -/
lemma get_db_user_by_email_eq_none_iff (db : DB) (e : String) :
    get_db_user_by_email db e = none ↔ ∀ u ∈ db.users, u.email ≠ e := by
  simp [get_db_user_by_email, List.find?_eq_none]

/-- The by-id lookup yields nothing exactly when no stored user has the id. -/
lemma get_db_user_eq_none_iff (db : DB) (i : Nat) :
    get_db_user db i = none ↔ ∀ u ∈ db.users, u.id ≠ i := by
  simp [get_db_user, List.find?_eq_none]

/-- A user returned by the by-id lookup is stored and has the requested id. -/
lemma get_db_user_eq_some (db : DB) (i : Nat) (u : User)
    (h : get_db_user db i = some u) : u ∈ db.users ∧ u.id = i := by
  refine ⟨List.mem_of_find?_eq_some h, ?_⟩
  have hp := List.find?_some h
  simpa using hp

/-- A user returned by the by-email lookup is stored and has the requested
email. -/
lemma get_db_user_by_email_eq_some (db : DB) (e : String) (u : User)
    (h : get_db_user_by_email db e = some u) : u ∈ db.users ∧ u.email = e := by
  refine ⟨List.mem_of_find?_eq_some h, ?_⟩
  have hp := List.find?_some h
  simpa using hp

/-- The get-account handler returns the store unchanged. -/
lemma read_user_state (uid : Nat) (db : DB) : (read_user uid db).2 = db := by
  cases h : get_db_user db uid <;> simp [read_user, h]

/-- A store used for witnesses: one account with email `a@example.com`. -/
def dbOne : DB := (create_user ⟨"a@example.com", "pw"⟩ DB.empty).2

/-! Claim theorems. -/

/-- C1: creating an account whose email is already used by a persisted
account fails with `HTTPException(400, "Email already registered")` and
leaves the store unchanged; and the handler produces an error only when such
a duplicate exists, and that error is always this one. -/
theorem create_user_conflict (db : DB) (req : UserCreateRequest) :
    ((∃ u ∈ db.users, u.email = req.email) →
      create_user req db = (Except.error ⟨400, "Email already registered"⟩, db)) ∧
    (∀ e, (create_user req db).1 = Except.error e →
      e = ⟨400, "Email already registered"⟩ ∧ ∃ u ∈ db.users, u.email = req.email) := by
  constructor
  · rintro ⟨u, hu, he⟩
    rcases h : get_db_user_by_email db req.email with _ | v
    · exact absurd he ((get_db_user_by_email_eq_none_iff db req.email).mp h u hu)
    · simp [create_user, h]
  · intro e he
    rcases h : get_db_user_by_email db req.email with _ | v
    · simp [create_user, h] at he
    · obtain ⟨hvmem, hve⟩ := get_db_user_by_email_eq_some db req.email v h
      simp [create_user, h] at he
      exact ⟨he.symm, v, hvmem, hve⟩

/-- C1 witness: with one stored account for `a@example.com`, creating another
account with the same email fails with 400 and does not change the store. -/
theorem create_user_conflict_witness :
    create_user ⟨"a@example.com", "pw2"⟩ dbOne =
      (Except.error ⟨400, "Email already registered"⟩, dbOne) :=
  (create_user_conflict dbOne ⟨"a@example.com", "pw2"⟩).1
    ⟨⟨1, "a@example.com", "pwnotreallyhashed", true⟩, by decide, rfl⟩

/-- C4: the create-record handler performs no existence check on the owner:
for every owner id (present or absent among stored accounts) it appends a
record with that owner id and the generated id, and returns that record
projected; the accounts table is untouched. -/
theorem create_item_for_user_no_owner_check (db : DB) (uid : Nat)
    (item : ItemCreateRequest) :
    create_item_for_user uid item db =
      (⟨item.title, item.description, db.nextItemId, uid⟩,
        { db with
            items := db.items ++ [⟨db.nextItemId, item.title, item.description, uid⟩]
            nextItemId := db.nextItemId + 1 }) := rfl

/-- C7: the get-account handler fails with `HTTPException(404, "User not
found")` exactly when no stored account has the requested id; when the lookup
finds an account, that account is stored, has the requested id, and is
returned projected to a response. -/
theorem read_user_spec (db : DB) (uid : Nat) :
    ((read_user uid db).1 = Except.error ⟨404, "User not found"⟩ ↔
      ∀ u ∈ db.users, u.id ≠ uid) ∧
    (∀ u, get_db_user db uid = some u →
      u ∈ db.users ∧ u.id = uid ∧
        (read_user uid db).1 = Except.ok (User.toResponse db u)) := by
  constructor
  · rcases h : get_db_user db uid with _ | v
    · simp [read_user, h, ← get_db_user_eq_none_iff]
    · obtain ⟨hvmem, hvid⟩ := get_db_user_eq_some db uid v h
      simp only [read_user, h]
      constructor
      · intro habs
        simp at habs
      · intro hall
        exact absurd hvid (hall v hvmem)
  · intro u hu
    obtain ⟨hmem, hid⟩ := get_db_user_eq_some db uid u hu
    exact ⟨hmem, hid, by simp [read_user, hu]⟩

/-- C7 witness: on the empty store, looking up account 5 yields the 404
error. -/
theorem read_user_spec_witness :
    (read_user 5 DB.empty).1 = Except.error ⟨404, "User not found"⟩ :=
  (read_user_spec DB.empty 5).1.mpr (by decide)

/-- C9: the persisted secret is the request's password concatenated with one
fixed suffix, the same for every request; the created account is active and
is appended to the store. -/
theorem create_db_user_secret_suffix :
    ∃ suffix : String, ∀ (db : DB) (req : UserCreateRequest),
      (create_db_user db req).1.hashed_password = req.password ++ suffix ∧
      (create_db_user db req).1.is_active = true ∧
      (create_db_user db req).2.users = db.users ++ [(create_db_user db req).1] :=
  ⟨"notreallyhashed", fun _ _ => ⟨rfl, rfl, rfl⟩⟩

/-- C10: every read handler (get account by id, list accounts, list records,
also at their declared defaults) returns the store it was given unchanged;
the by-email lookup is a pure function of the store and arguments. -/
theorem read_handlers_frame (db : DB) (uid s l : Nat) :
    (read_user uid db).2 = db ∧
    (read_users s l db).2 = db ∧
    (read_items s l db).2 = db ∧
    (read_users_default db).2 = db ∧
    (read_items_default db).2 = db ∧
    Op.apply (Op.readUser uid) db = db ∧
    Op.apply (Op.readUsers s l) db = db ∧
    Op.apply (Op.readItems s l) db = db :=
  ⟨read_user_state uid db, rfl, rfl, rfl, rfl, read_user_state uid db, rfl, rfl⟩

/-- Serving one request preserves distinctness of stored emails: only the
create-account operation touches the accounts table, and it inserts only
after the by-email lookup comes back empty. -/
lemma apply_preserves_emails_nodup (op : Op) (db : DB)
    (h : (db.users.map User.email).Nodup) :
    ((op.apply db).users.map User.email).Nodup := by
  cases op with
  | createUser req =>
    rcases hfind : get_db_user_by_email db req.email with _ | v
    · have hfresh := (get_db_user_by_email_eq_none_iff db req.email).mp hfind
      simp only [Op.apply, create_user, hfind, create_db_user]
      rw [List.map_append]
      refine List.nodup_append.mpr ⟨h, by simp, ?_⟩
      intro a ha hb
      simp at hb
      rcases List.mem_map.mp ha with ⟨u, hu, he⟩
      exact hfresh u hu (he.trans hb)
    · simpa [Op.apply, create_user, hfind] using h
  | createItem uid item =>
    simpa [Op.apply, create_item_for_user, create_db_user_item] using h
  | readUser uid => simpa [Op.apply, read_user_state] using h
  | readUsers s l => simpa [Op.apply, read_users] using h
  | readItems s l => simpa [Op.apply, read_items] using h

/-- Serving a sequence of requests preserves distinctness of stored emails. -/
lemma runOps_preserves_emails_nodup (ops : List Op) (db : DB)
    (h : (db.users.map User.email).Nodup) :
    ((runOps ops db).users.map User.email).Nodup := by
  induction ops generalizing db with
  | nil => exact h
  | cons op ops ih => exact ih _ (apply_preserves_emails_nodup op db h)

/-- C2: in every store reachable from the empty store by a sequence of public
operations, no two persisted accounts share an email. -/
theorem reachable_emails_nodup (db : DB) (h : reachable db) :
    (db.users.map User.email).Nodup := by
  rcases h with ⟨ops, rfl⟩
  exact runOps_preserves_emails_nodup ops DB.empty (by simp [DB.empty])

/-- C2 witness: the store reached by one account creation has pairwise
distinct emails. -/
theorem reachable_emails_nodup_witness :
    ((runOps [Op.createUser ⟨"a@example.com", "pw"⟩] DB.empty).users.map
      User.email).Nodup :=
  reachable_emails_nodup _ ⟨[Op.createUser ⟨"a@example.com", "pw"⟩], rfl⟩

/-- C5: creating a record for owner X and then listing records (from the
start, with a limit that covers the table) yields a list containing a
response with owner_id X and exactly the submitted title and description —
including an absent description. -/
theorem create_item_then_list_items (db : DB) (uid : Nat)
    (item : ItemCreateRequest) (limit : Nat) (h : db.items.length < limit) :
    ItemResponse.mk item.title item.description db.nextItemId uid ∈
      (read_items 0 limit ((create_item_for_user uid item db).2)).1 := by
  simp only [read_items, get_db_items, create_item_for_user,
    create_db_user_item, List.drop_zero]
  rw [List.take_of_length_le (by simp; omega)]
  rw [List.map_append]
  exact List.mem_append_right _ (by simp [Item.toResponse])

/-- C5 witness: creating a record with absent description for owner 7 on the
empty store and listing records returns it. -/
theorem create_item_then_list_items_witness :
    ItemResponse.mk "t" none 1 7 ∈
      (read_items 0 100 ((create_item_for_user 7 ⟨"t", none⟩ DB.empty).2)).1 :=
  create_item_then_list_items DB.empty 7 ⟨"t", none⟩ 100 (by decide)

/-- C8: projecting a persisted account preserves id, email, is_active and the
list of associated record ids; and two accounts project to the same response
exactly when they agree on id, email and is_active — the projection loses
nothing else, in particular the secret does not influence it. -/
theorem userResponse_roundtrip :
    (∀ (db : DB) (u : User),
      (User.toResponse db u).id = u.id ∧
      (User.toResponse db u).email = u.email ∧
      (User.toResponse db u).is_active = u.is_active ∧
      (User.toResponse db u).items.map ItemResponse.id =
        (User.itemsOf db u).map Item.id) ∧
    (∀ (db : DB) (u₁ u₂ : User),
      User.toResponse db u₁ = User.toResponse db u₂ ↔
        u₁.id = u₂.id ∧ u₁.email = u₂.email ∧ u₁.is_active = u₂.is_active) := by
  constructor
  · intro db u
    refine ⟨rfl, rfl, rfl, ?_⟩
    simp only [User.toResponse, List.map_map]
    rfl
  · intro db u₁ u₂
    constructor
    · intro h
      simp only [User.toResponse, UserResponse.mk.injEq] at h
      exact ⟨h.2.1, h.1, h.2.2.1⟩
    · rintro ⟨hid, hemail, hact⟩
      obtain ⟨i₁, e₁, p₁, a₁⟩ := u₁
      obtain ⟨i₂, e₂, p₂, a₂⟩ := u₂
      simp only at hid hemail hact
      subst hid hemail hact
      rfl

/-- A store holding one orphaned record (owner id 1, no accounts): reachable
because the create-record handler never checks that the owner exists. -/
def dbOrphan : DB := (create_item_for_user 1 ⟨"t", none⟩ DB.empty).2

/-- C3 counterexample: on a store with no accounts (so any email is fresh)
but one orphaned record with owner id 1, creating an account succeeds with
generated id 1 and the response's records list is NOT empty — it contains the
orphaned record, because the relationship is loaded by owner id. -/
theorem create_user_fresh_records_counterexample :
    dbOrphan.users = [] ∧
    (create_user ⟨"a@example.com", "pw"⟩ dbOrphan).1 =
      Except.ok ⟨"a@example.com", 1, true, [⟨"t", none, 1, 1⟩]⟩ ∧
    (create_user ⟨"a@example.com", "pw"⟩ dbOrphan).1 ≠
      Except.ok ⟨"a@example.com", 1, true, []⟩ := by
  refine ⟨rfl, rfl, fun hcontra => ?_⟩
  have h2 := Except.ok.inj hcontra
  exact absurd h2 (by decide)

/-- C3 (amended): creating an account with a fresh email succeeds; the
response carries the generated id, the request's email, is_active, and the
projections of exactly those already-stored records whose owner id equals the
generated id (empty unless such orphaned records exist); the new row is
appended with the derived secret; and the projection never depends on the
secret, which has no field in the response shape. -/
theorem create_user_fresh_email_spec (db : DB) (req : UserCreateRequest)
    (h : ∀ u ∈ db.users, u.email ≠ req.email) :
    create_user req db =
      (Except.ok ⟨req.email, db.nextUserId, true,
          ((db.items.filter (fun it => it.owner_id == db.nextUserId)).map
            Item.toResponse)⟩,
        { db with
            users := db.users ++
              [⟨db.nextUserId, req.email, req.password ++ "notreallyhashed", true⟩]
            nextUserId := db.nextUserId + 1 }) ∧
    (∀ (d : DB) (u : User) (hp : String),
      User.toResponse d ⟨u.id, u.email, hp, u.is_active⟩ = User.toResponse d u) := by
  have hfind : get_db_user_by_email db req.email = none :=
    (get_db_user_by_email_eq_none_iff db req.email).mpr h
  constructor
  · unfold create_user
    rw [hfind]
    rfl
  · intro d u hp
    rfl

/-- C3 witness: on a store with one account for `a@example.com`, creating an
account for the fresh email `b@example.com` succeeds with id 2, is_active and
no records. -/
theorem create_user_fresh_email_spec_witness :
    (create_user ⟨"b@example.com", "pw"⟩ dbOne).1 =
      Except.ok ⟨"b@example.com", 2, true, []⟩ := by
  rw [(create_user_fresh_email_spec dbOne ⟨"b@example.com", "pw"⟩ (by decide)).1]
  rfl

/-- Request sequence creating `n` accounts with pairwise distinct emails. -/
def mkUserOps (n : Nat) : List Op :=
  (List.range n).map (fun i => Op.createUser ⟨toString i ++ "@example.com", "pw"⟩)

set_option maxRecDepth 100000 in
/-- The store after creating 150 accounts with distinct emails. -/
def db150 : DB := runOps (mkUserOps 150) DB.empty

set_option maxRecDepth 100000 in
/-- C6: the list-accounts handler returns the storage-order projection paged
by dropping `skip` accounts and taking at most `limit`; its result never
exceeds `limit` entries; the declared handler defaults are skip 0, limit 100;
and after creating 150 accounts, skip 100 / limit 100 returns exactly the
remaining 50 accounts (ids 101 through 150). -/
theorem read_users_pagination :
    (∀ (db : DB) (skip limit : Nat),
      (read_users skip limit db).1 =
        ((db.users.map (User.toResponse db)).drop skip).take limit) ∧
    (∀ (db : DB) (skip limit : Nat),
      (read_users skip limit db).1.length ≤ limit) ∧
    (∀ db : DB, read_users_default db = read_users 0 100 db) ∧
    db150.users.length = 150 ∧
    (read_users 100 100 db150).1.map UserResponse.id =
      (List.range 50).map (fun i => 101 + i) ∧
    (read_users 100 100 db150).1.length = 50 := by
  have hconc : db150.users.length = 150 ∧
      (read_users 100 100 db150).1.map UserResponse.id =
        (List.range 50).map (fun i => 101 + i) := by decide
  refine ⟨?_, ?_, fun _ => rfl, hconc.1, hconc.2, ?_⟩
  · intro db s l
    simp only [read_users, get_db_users]
    rw [List.map_take, List.map_drop]
  · intro db s l
    simp only [read_users, get_db_users]
    rw [List.map_take]
    exact (List.length_take_le ..).trans (by simp)
  · have hlen := congrArg List.length hconc.2
    simpa using hlen
